import Mathlib

/-!
Verification of `usbhid/src/usbhid.cpp` (`USBHID_ns::GetlInstalledDevicesInfo`).

The single routine of the repository performs a five-stage pipeline of OS
queries (device-interface discovery, path resolution, handle open,
manufacturer / attributes / preparsed-data / capability queries) and
assembles per-device records.  We shallow-embed the routine as a pure
function over an oracle `OsEnv` that supplies the answer of every OS call
the routine makes.  `std::map` (keyed by `HANDLE`, iterated in ascending
key order, populated by `emplace` which never overwrites an existing key)
is embedded as a key-sorted association list built by `mapInsert`.
The C++ exception paths (`std::wstring::erase(npos)` in the manufacturer
stage, `std::map::at` on a missing key in the final assembly loop) are
embedded with `Option`: `none` is an exception reaching the outer
`catch(...)`, which returns the empty list (release semantics: the
`assert` in the catch block is a no-op).
-/

/-- A Windows `HANDLE` value, abstracted to a natural number.  `std::map`
orders handles by `operator<` on the raw value. -/
abbrev Handle := Nat

/-- A `std::wstring`, as its list of UTF-16 code units. -/
abbrev WStr := List Nat

/-- Modelled from the spec: `hidAttributes` is declared in the missing
header `usbhid/interface/usbhid.hpp`; the spec describes it as the record
{vendorId, productId, versionNumber}, each 16-bit, and `usbhid.cpp:130`
constructs it from `HIDD_ATTRIBUTES` in that field order. -/
structure hidAttributes where
  vendorID : Nat
  productID : Nat
  versionNumber : Nat
deriving DecidableEq

/-- Modelled from the spec: the `::HIDP_CAPS` capability descriptor is
treated by `usbhid.cpp` as an opaque fixed-size block copied whole; the
spec describes it as usage information plus input/output/feature report
lengths. -/
structure HIDP_CAPS where
  usagePage : Nat
  usage : Nat
  inputReportByteLength : Nat
  outputReportByteLength : Nat
  featureReportByteLength : Nat
deriving DecidableEq

/-- The all-zero capability block (the C++ value-initialised `::HIDP_CAPS hidCaps{}`). -/
def emptyCaps : HIDP_CAPS := ⟨0, 0, 0, 0, 0⟩

/-- Modelled from the spec: `hidDeviceInfo` is declared in the missing
header; the spec describes it as {path, manufacturer, attributes,
capabilities}, and `usbhid.cpp:186` constructs it in that field order. -/
structure hidDeviceInfo where
  path : WStr
  manufacturer : WStr
  attributes : hidAttributes
  capabilities : HIDP_CAPS
deriving DecidableEq

/-- See https://docs.microsoft.com/..../nf-hidsdi-hidd_getmanufacturerstring
(`usbhid.cpp:27`). -/
def MAX_USB_DEVICE_STR_LEN : Nat := 126

/-- `std::map::emplace` into a key-sorted association list: inserts at the
sorted position, and leaves the map unchanged when the key is already
present ("no check for already-existing element", `usbhid.cpp:77`). -/
def mapInsert {α : Type} (k : Nat) (v : α) : List (Nat × α) → List (Nat × α)
  | [] => [(k, v)]
  | (k₁, v₁) :: rest =>
    if k < k₁ then (k, v) :: (k₁, v₁) :: rest
    else if k = k₁ then (k₁, v₁) :: rest
    else (k₁, v₁) :: mapInsert k v rest

/-- `std::map` lookup (`find` / `at`): the value at key `k`, if present. -/
def mapFind? {α : Type} (k : Nat) : List (Nat × α) → Option α
  | [] => none
  | (k₁, v₁) :: rest => if k = k₁ then some v₁ else mapFind? k rest

/-- The oracle answering every OS call `GetlInstalledDevicesInfo` makes.
One field per call site; a field of type `Option _` is `none` when the OS
call fails at that argument. -/
structure OsEnv where
  /-- `SetupDiGetClassDevs` returned a handle ≠ `INVALID_HANDLE_VALUE`. -/
  classDevsValid : Bool
  /-- The device-interface entries `SetupDiEnumDeviceInterfaces` yields, in
  enumeration order (the while loop of `usbhid.cpp:54` walks them until the
  OS signals no more entries). -/
  interfaces : List Nat
  /-- `GetDevicePath` for one interface entry; the empty string on failure
  (`usbhid.cpp:233`). -/
  getDevicePath : Nat → WStr
  /-- `CreateFile` on the i-th element of `devicePaths`; `none` is
  `INVALID_HANDLE_VALUE`.  The call index models the statefulness of the
  OS handle allocator (two opens of the same path may return distinct
  handles). -/
  createFile : Nat → WStr → Option Handle
  /-- The code units `HidD_GetManufacturerString` writes into the caller's
  buffer for this handle (nothing, i.e. `[]`, when the query fails and the
  buffer keeps its `L'\0'` fill). -/
  getManufacturerString : Handle → WStr
  /-- `HidD_GetAttributes` for this handle. -/
  getAttributes : Handle → Option hidAttributes
  /-- `HidD_GetPreparsedData` succeeded for this handle (the blob itself is
  opaque and consumed only by `HidP_GetCaps`). -/
  getPreparsedData : Handle → Bool
  /-- `HidP_GetCaps` on this handle's preparsed blob; `none` is a
  non-`HIDP_STATUS_SUCCESS` return. -/
  getCaps : Handle → Option HIDP_CAPS

/-- `devicePaths` (`usbhid.cpp:47-64`): resolve each enumerated interface
to a path, skipping (silently) the entries whose path is empty. -/
def devicePaths (os : OsEnv) : List WStr :=
  (os.interfaces.map os.getDevicePath).filter (fun p => !p.isEmpty)

/-- `openDeviceHandles` (`usbhid.cpp:66-83`): `CreateFile` each resolved
path; successful opens are `emplace`d into a `std::map<HANDLE, wstring>`. -/
def openDeviceHandles (os : OsEnv) : List (Handle × WStr) :=
  (devicePaths os).enum.foldl
    (fun m ip =>
      match os.createFile ip.1 ip.2 with
      | some h => mapInsert h ip.2 m
      | none => m) []

/-- The manufacturer buffer after the `HidD_GetManufacturerString` call:
a `std::wstring` of `MAX_USB_DEVICE_STR_LEN` code units, initially all
`L'\0'`, with the OS-written prefix over the front (`usbhid.cpp:107-108`). -/
def manuBuffer (os : OsEnv) (h : Handle) : WStr :=
  let w := (os.getManufacturerString h).take MAX_USB_DEVICE_STR_LEN
  w ++ List.replicate (MAX_USB_DEVICE_STR_LEN - w.length) 0

/-- `str.find_first_of(L'\0')` followed by `str.erase(endOfStr)`
(`usbhid.cpp:109-110`): truncate at the first null; when the buffer holds
no null, `find_first_of` is `npos` and `erase(npos)` throws
`std::out_of_range` (`none`). -/
def truncAtNul (buf : WStr) : Option WStr :=
  match buf.findIdx? (fun c => c == 0) with
  | some i => some (buf.take i)
  | none => none

/-- The loop building `hndManufacturerMap` (`usbhid.cpp:98-115`), element
by element; `none` when the truncation step throws. -/
def hndManuAux (os : OsEnv) (acc : List (Handle × WStr)) :
    List (Handle × WStr) → Option (List (Handle × WStr))
  | [] => some acc
  | hp :: rest =>
    match truncAtNul (manuBuffer os hp.1) with
    | some s => hndManuAux os (mapInsert hp.1 s acc) rest
    | none => none

/-- `hndManufacturerMap` (`usbhid.cpp:98-115`): the manufacturer string of
every open handle (never dropping a handle), or `none` when the erase step
throws for some handle. -/
def hndManufacturerMap (os : OsEnv) : Option (List (Handle × WStr)) :=
  hndManuAux os [] (openDeviceHandles os)

/-- `handleAttributesMap` (`usbhid.cpp:118-136`): handles whose
`HidD_GetAttributes` succeeded, with the converted attributes record. -/
def handleAttributesMap (os : OsEnv) : List (Handle × hidAttributes) :=
  (openDeviceHandles os).foldl
    (fun m hp =>
      match os.getAttributes hp.1 with
      | some a => mapInsert hp.1 a m
      | none => m) []

/-- `handlePreparsedDataMap` (`usbhid.cpp:138-157`): handles whose
`HidD_GetPreparsedData` succeeded (each owning one blob via `unique_ptr`). -/
def handlePreparsedDataMap (os : OsEnv) : List (Handle × Unit) :=
  (openDeviceHandles os).foldl
    (fun m hp => if os.getPreparsedData hp.1 then mapInsert hp.1 () m else m) []

/-- `devPathCapsMap` (`usbhid.cpp:159-176`): handles (among the preparsed
survivors) whose `HidP_GetCaps` returned `HIDP_STATUS_SUCCESS`. -/
def devPathCapsMap (os : OsEnv) : List (Handle × HIDP_CAPS) :=
  (handlePreparsedDataMap os).foldl
    (fun m hp =>
      match os.getCaps hp.1 with
      | some c => mapInsert hp.1 c m
      | none => m) []

/-- The final assembly loop (`usbhid.cpp:184-188`): iterate
`handleAttributesMap` and look each handle up in the other collections via
`std::map::at`, which throws (`none`) on a missing key. -/
def buildInfoList (os : OsEnv) (manu : List (Handle × WStr)) :
    List (Handle × hidAttributes) → Option (List hidDeviceInfo)
  | [] => some []
  | (h, a) :: rest =>
    match mapFind? h (openDeviceHandles os), mapFind? h manu,
        mapFind? h (devPathCapsMap os) with
    | some p, some m, some c =>
      match buildInfoList os manu rest with
      | some tail => some (⟨p, m, a, c⟩ :: tail)
      | none => none
    | _, _, _ => none

/-- The body of `GetlInstalledDevicesInfo` inside the `try` block:
`none` when an exception propagates to the outer `catch(...)`;
`some []` on the early path where `SetupDiGetClassDevs` returned
`INVALID_HANDLE_VALUE` (the routine falls through to `return {}` without
any device work). -/
def rawBody (os : OsEnv) : Option (List hidDeviceInfo) :=
  if os.classDevsValid then
    match hndManufacturerMap os with
    | some manu => buildInfoList os manu (handleAttributesMap os)
    | none => none
  else some []

/-- `USBHID_ns::GetlInstalledDevicesInfo` (`usbhid.cpp:40-198`): the try
body's result, with any exception reduced by the `catch(...)` to the empty
list. -/
def GetlInstalledDevicesInfo (os : OsEnv) : List hidDeviceInfo :=
  (rawBody os).getD []

/-- The handles `CreateFile` successfully returned during one call (none
are requested when discovery reported no interface set). -/
def acquiredHandles (os : OsEnv) : List Handle :=
  if os.classDevsValid then
    (devicePaths os).enum.filterMap (fun ip => os.createFile ip.1 ip.2)
  else []

/-- The handles `CloseHandlesGuard` closes at scope exit
(`usbhid.cpp:85-96`): every key of `openDeviceHandles`, on every exit path
after the map is built; nothing on the invalid-discovery path, where no
handle was opened. -/
def releasedHandles (os : OsEnv) : List Handle :=
  if os.classDevsValid then (openDeviceHandles os).map Prod.fst else []

/-- The preparsed-data stage runs only when discovery succeeded and the
manufacturer stage did not throw (stage order of `usbhid.cpp`). -/
def blobStageReached (os : OsEnv) : Bool :=
  os.classDevsValid && (hndManufacturerMap os).isSome

/-- The preparsed blobs `HidD_GetPreparsedData` successfully allocated
(identified by their handle), when the stage runs at all. -/
def acquiredBlobs (os : OsEnv) : List Handle :=
  if blobStageReached os then
    (openDeviceHandles os).filterMap
      (fun hp => if os.getPreparsedData hp.1 then some hp.1 else none)
  else []

/-- The blobs freed by the `unique_ptr` deleters of
`handlePreparsedDataMap` at scope exit: one per key, on every exit path
after the map is built. -/
def releasedBlobs (os : OsEnv) : List Handle :=
  if blobStageReached os then (handlePreparsedDataMap os).map Prod.fst else []

/-- Whether the `HDEVINFO` device-information set of `SetupDiGetClassDevs`
(`usbhid.cpp:44`) was acquired during one call: it was whenever the call
did not return `INVALID_HANDLE_VALUE`.  SetupAPI requires the caller to
free this set with `SetupDiDestroyDeviceInfoList`. -/
def infoSetAcquired (os : OsEnv) : Bool :=
  os.classDevsValid

/-- Whether the device-information set is released before the call
returns: `usbhid.cpp` contains no `SetupDiDestroyDeviceInfoList` call (nor
any other release of `deviceInfo`) on any path, so it never is. -/
def infoSetReleased (_os : OsEnv) : Bool :=
  false

/-! ### Generic lemmas about the `std::map` embedding -/

theorem mem_mapInsert {α : Type} {k : Nat} {v : α} {m : List (Nat × α)} {x : Nat × α}
    (hx : x ∈ mapInsert k v m) : x = (k, v) ∨ x ∈ m := by
  induction m with
  | nil => simpa [mapInsert] using hx
  | cons hd tl ih =>
    obtain ⟨k₁, v₁⟩ := hd
    simp only [mapInsert] at hx
    split at hx
    · rcases List.mem_cons.mp hx with h | h
      · exact Or.inl h
      · exact Or.inr h
    · split at hx
      · exact Or.inr hx
      · rcases List.mem_cons.mp hx with h | h
        · exact Or.inr (List.mem_cons.mpr (Or.inl h))
        · rcases ih h with h₁ | h₁
          · exact Or.inl h₁
          · exact Or.inr (List.mem_cons.mpr (Or.inr h₁))

theorem mapInsert_fresh_perm {α : Type} {k : Nat} (v : α) {m : List (Nat × α)}
    (hk : k ∉ m.map Prod.fst) : (mapInsert k v m).Perm ((k, v) :: m) := by
  induction m with
  | nil => simp [mapInsert]
  | cons hd tl ih =>
    obtain ⟨k₁, v₁⟩ := hd
    simp only [List.map_cons, List.mem_cons] at hk
    push_neg at hk
    simp only [mapInsert]
    split
    · exact List.Perm.refl _
    · split
      · exact absurd ‹k = k₁› hk.1
      · exact ((ih hk.2).cons _).trans (List.Perm.swap _ _ _)

theorem mapInsert_sorted {α : Type} {k : Nat} (v : α) {m : List (Nat × α)}
    (hs : m.Pairwise (fun x y => x.1 < y.1)) :
    (mapInsert k v m).Pairwise (fun x y => x.1 < y.1) := by
  induction m with
  | nil => simp [mapInsert]
  | cons hd tl ih =>
    obtain ⟨k₁, v₁⟩ := hd
    rw [List.pairwise_cons] at hs
    simp only [mapInsert]
    split
    · refine List.pairwise_cons.mpr ⟨?_, List.pairwise_cons.mpr hs⟩
      intro y hy
      rcases List.mem_cons.mp hy with rfl | hy
      · exact ‹k < k₁›
      · exact Nat.lt_trans ‹k < k₁› (hs.1 y hy)
    · split
      · exact List.pairwise_cons.mpr hs
      · refine List.pairwise_cons.mpr ⟨?_, ih hs.2⟩
        intro y hy
        rcases mem_mapInsert hy with rfl | hy
        · omega
        · exact hs.1 y hy

theorem sorted_keys_nodup {α : Type} {m : List (Nat × α)}
    (hs : m.Pairwise (fun x y => x.1 < y.1)) : (m.map Prod.fst).Nodup := by
  have : (m.map Prod.fst).Pairwise (fun a b => a ≠ b) := by
    rw [List.pairwise_map]
    exact hs.imp (fun h => Nat.ne_of_lt h)
  exact this

theorem mapFind?_eq_some_of_mem {α : Type} {k : Nat} {v : α} {m : List (Nat × α)}
    (hn : (m.map Prod.fst).Nodup) (hm : (k, v) ∈ m) : mapFind? k m = some v := by
  induction m with
  | nil => simp at hm
  | cons hd tl ih =>
    obtain ⟨k₁, v₁⟩ := hd
    simp only [List.map_cons, List.nodup_cons] at hn
    rcases List.mem_cons.mp hm with heq | hm₁
    · obtain ⟨rfl, rfl⟩ := Prod.mk.injEq .. ▸ heq
      · simp [mapFind?]
    · have hk : k ≠ k₁ := by
        rintro rfl
        exact hn.1 (List.mem_map.mpr ⟨(k, v), hm₁, rfl⟩)
      simp only [mapFind?, if_neg hk]
      exact ih hn.2 hm₁

theorem mem_of_mapFind?_eq_some {α : Type} {k : Nat} {v : α} {m : List (Nat × α)}
    (h : mapFind? k m = some v) : (k, v) ∈ m := by
  induction m with
  | nil => simp [mapFind?] at h
  | cons hd tl ih =>
    obtain ⟨k₁, v₁⟩ := hd
    simp only [mapFind?] at h
    split at h
    · obtain rfl := Option.some.inj h
      subst ‹k = k₁›
      exact List.mem_cons_self _ _
    · exact List.mem_cons.mpr (Or.inr (ih h))

theorem mapFind?_eq_none_iff {α : Type} {k : Nat} {m : List (Nat × α)} :
    mapFind? k m = none ↔ k ∉ m.map Prod.fst := by
  induction m with
  | nil => simp [mapFind?]
  | cons hd tl ih =>
    obtain ⟨k₁, v₁⟩ := hd
    simp only [mapFind?, List.map_cons, List.mem_cons]
    split
    · simp [‹k = k₁›]
    · simp [ih, ‹¬ k = k₁›]

/-- Folding `emplace` over a list of key-value pairs (the shape of every
map-building loop of `usbhid.cpp`). -/
def insFold {α : Type} (l : List (Nat × α)) (acc : List (Nat × α)) : List (Nat × α) :=
  l.foldl (fun m kv => mapInsert kv.1 kv.2 m) acc

theorem insFold_perm {α : Type} (l : List (Nat × α)) : ∀ acc : List (Nat × α),
    ((acc.map Prod.fst) ++ (l.map Prod.fst)).Nodup →
    (insFold l acc).Perm (acc ++ l) := by
  induction l with
  | nil => intro acc _; simp [insFold]
  | cons kv rest ih =>
    intro acc h
    obtain ⟨k, v⟩ := kv
    have hk : k ∉ acc.map Prod.fst := by
      rw [List.nodup_append] at h
      intro hx
      exact h.2.2 hx (by simp)
    have hstep : (mapInsert k v acc).Perm ((k, v) :: acc) := mapInsert_fresh_perm v hk
    have hperm₁ : (acc.map Prod.fst ++ ((k, v) :: rest).map Prod.fst).Perm
        (((mapInsert k v acc).map Prod.fst) ++ rest.map Prod.fst) := by
      simp only [List.map_cons]
      exact List.perm_middle.trans
        (((hstep.map Prod.fst).symm.trans (List.Perm.refl _)).append_right _)
    have hn₁ : (((mapInsert k v acc).map Prod.fst) ++ rest.map Prod.fst).Nodup :=
      hperm₁.nodup h
    have hrec := ih (mapInsert k v acc) hn₁
    have : insFold ((k, v) :: rest) acc = insFold rest (mapInsert k v acc) := rfl
    rw [this]
    refine hrec.trans ?_
    refine (hstep.append_right rest).trans ?_
    exact List.perm_middle.symm

theorem insFold_sorted {α : Type} (l : List (Nat × α)) : ∀ acc : List (Nat × α),
    acc.Pairwise (fun x y => x.1 < y.1) →
    (insFold l acc).Pairwise (fun x y => x.1 < y.1) := by
  induction l with
  | nil => intro acc h; exact h
  | cons kv rest ih =>
    intro acc h
    exact ih (mapInsert kv.1 kv.2 acc) (mapInsert_sorted kv.2 h)

theorem foldl_match_eq_insFold {α β : Type} (step : List (Nat × α) → β → List (Nat × α))
    (g : β → Option (Nat × α))
    (hstep : ∀ m b, step m b = match g b with
      | some kv => mapInsert kv.1 kv.2 m
      | none => m) :
    ∀ (l : List β) (acc : List (Nat × α)), l.foldl step acc = insFold (l.filterMap g) acc := by
  intro l
  induction l with
  | nil => intro acc; simp [insFold]
  | cons b rest ih =>
    intro acc
    rw [List.foldl_cons, List.filterMap_cons, hstep]
    cases hg : g b with
    | none => exact ih acc
    | some kv =>
      have : insFold (kv :: rest.filterMap g) acc
          = insFold (rest.filterMap g) (mapInsert kv.1 kv.2 acc) := rfl
      rw [this]
      exact ih (mapInsert kv.1 kv.2 acc)

theorem map_fst_filterMap_congr {α β : Type} (g : β → Option (Nat × α)) (c : β → Option Nat)
    (hgc : ∀ b, (g b).map Prod.fst = c b) (l : List β) :
    (l.filterMap g).map Prod.fst = l.filterMap c := by
  induction l with
  | nil => rfl
  | cons b rest ih =>
    rw [List.filterMap_cons, List.filterMap_cons, ← hgc b]
    cases hg : g b <;> simp [ih]

theorem filterMap_keys_sublist {β : Type} (c : β → Option Nat) (keyf : β → Nat)
    (hc : ∀ b, c b = none ∨ c b = some (keyf b)) (l : List β) :
    (l.filterMap c).Sublist (l.map keyf) := by
  induction l with
  | nil => simp
  | cons b rest ih =>
    rw [List.filterMap_cons, List.map_cons]
    rcases hc b with h | h
    · rw [h]; exact ih.cons _
    · rw [h]; exact ih.cons₂ _

/-! ### Characterising the pipeline stages -/

/-- The successful `CreateFile` results of one call, in call order, paired
with the path each open was performed on. -/
def opensList (os : OsEnv) : List (Handle × WStr) :=
  (devicePaths os).enum.filterMap
    (fun ip => (os.createFile ip.1 ip.2).map (fun h => (h, ip.2)))

theorem openDeviceHandles_eq_insFold (os : OsEnv) :
    openDeviceHandles os = insFold (opensList os) [] :=
  foldl_match_eq_insFold _ _ (fun m b => by cases os.createFile b.1 b.2 <;> rfl) _ []

theorem opensList_keys (os : OsEnv) :
    (opensList os).map Prod.fst
      = (devicePaths os).enum.filterMap (fun ip => os.createFile ip.1 ip.2) :=
  map_fst_filterMap_congr _ _ (fun b => by cases os.createFile b.1 b.2 <;> rfl) _

theorem openDeviceHandles_sorted (os : OsEnv) :
    (openDeviceHandles os).Pairwise (fun x y => x.1 < y.1) := by
  rw [openDeviceHandles_eq_insFold]
  exact insFold_sorted _ [] (by simp)

theorem openDeviceHandles_keys_nodup (os : OsEnv) :
    ((openDeviceHandles os).map Prod.fst).Nodup :=
  sorted_keys_nodup (openDeviceHandles_sorted os)

theorem openDeviceHandles_perm (os : OsEnv)
    (hn : ((devicePaths os).enum.filterMap (fun ip => os.createFile ip.1 ip.2)).Nodup) :
    (openDeviceHandles os).Perm (opensList os) := by
  rw [openDeviceHandles_eq_insFold]
  have hkeys : ((opensList os).map Prod.fst).Nodup := by rw [opensList_keys]; exact hn
  simpa using insFold_perm (opensList os) [] (by simpa using hkeys)

/-- The attributes-stage survivors in open-map iteration order. -/
def attrsList (os : OsEnv) : List (Handle × hidAttributes) :=
  (openDeviceHandles os).filterMap
    (fun hp => (os.getAttributes hp.1).map (fun a => (hp.1, a)))

theorem handleAttributesMap_eq_insFold (os : OsEnv) :
    handleAttributesMap os = insFold (attrsList os) [] :=
  foldl_match_eq_insFold _ _ (fun m b => by cases os.getAttributes b.1 <;> rfl) _ []

theorem attrsList_keys_nodup (os : OsEnv) : ((attrsList os).map Prod.fst).Nodup := by
  have hkeys : (attrsList os).map Prod.fst
      = (openDeviceHandles os).filterMap
          (fun hp => (os.getAttributes hp.1).map (fun _ => hp.1)) :=
    map_fst_filterMap_congr _ _ (fun b => by cases os.getAttributes b.1 <;> rfl) _
  rw [hkeys]
  exact (filterMap_keys_sublist _ Prod.fst
    (fun b => by cases os.getAttributes b.1 <;> simp) _).nodup
    (openDeviceHandles_keys_nodup os)

theorem handleAttributesMap_perm (os : OsEnv) :
    (handleAttributesMap os).Perm (attrsList os) := by
  rw [handleAttributesMap_eq_insFold]
  simpa using insFold_perm (attrsList os) [] (by simpa using attrsList_keys_nodup os)

theorem handleAttributesMap_sorted (os : OsEnv) :
    (handleAttributesMap os).Pairwise (fun x y => x.1 < y.1) := by
  rw [handleAttributesMap_eq_insFold]
  exact insFold_sorted _ [] (by simp)

theorem mem_handleAttributesMap_iff (os : OsEnv) {h : Handle} {a : hidAttributes} :
    (h, a) ∈ handleAttributesMap os
      ↔ ∃ p, (h, p) ∈ openDeviceHandles os ∧ os.getAttributes h = some a := by
  rw [(handleAttributesMap_perm os).mem_iff]
  constructor
  · intro hm
    obtain ⟨hp, hmem, heq⟩ := List.mem_filterMap.mp hm
    obtain ⟨h₁, p₁⟩ := hp
    cases hga : os.getAttributes h₁ with
    | none => rw [hga] at heq; simp at heq
    | some a₁ =>
      rw [hga] at heq
      simp only [Option.map_some'] at heq
      obtain ⟨rfl, rfl⟩ := Prod.mk.injEq .. ▸ Option.some.inj heq
      exact ⟨p₁, hmem, hga⟩
  · rintro ⟨p, hmem, hga⟩
    exact List.mem_filterMap.mpr ⟨(h, p), hmem, by simp [hga]⟩

/-- The preparsed-data-stage survivors in open-map iteration order. -/
def prepList (os : OsEnv) : List (Handle × Unit) :=
  (openDeviceHandles os).filterMap
    (fun hp => if os.getPreparsedData hp.1 then some (hp.1, ()) else none)

theorem handlePreparsedDataMap_eq_insFold (os : OsEnv) :
    handlePreparsedDataMap os = insFold (prepList os) [] :=
  foldl_match_eq_insFold _ _
    (fun m b => by by_cases hb : os.getPreparsedData b.1 <;> simp [hb]) _ []

theorem prepList_keys (os : OsEnv) :
    (prepList os).map Prod.fst
      = (openDeviceHandles os).filterMap
          (fun hp => if os.getPreparsedData hp.1 then some hp.1 else none) :=
  map_fst_filterMap_congr _ _
    (fun b => by by_cases hb : os.getPreparsedData b.1 <;> simp [hb]) _

theorem prepList_keys_nodup (os : OsEnv) : ((prepList os).map Prod.fst).Nodup := by
  rw [prepList_keys]
  exact (filterMap_keys_sublist _ Prod.fst
    (fun b => by by_cases hb : os.getPreparsedData b.1 <;> simp [hb]) _).nodup
    (openDeviceHandles_keys_nodup os)

theorem handlePreparsedDataMap_perm (os : OsEnv) :
    (handlePreparsedDataMap os).Perm (prepList os) := by
  rw [handlePreparsedDataMap_eq_insFold]
  simpa using insFold_perm (prepList os) [] (by simpa using prepList_keys_nodup os)

theorem handlePreparsedDataMap_sorted (os : OsEnv) :
    (handlePreparsedDataMap os).Pairwise (fun x y => x.1 < y.1) := by
  rw [handlePreparsedDataMap_eq_insFold]
  exact insFold_sorted _ [] (by simp)

theorem mem_handlePreparsedDataMap_iff (os : OsEnv) {h : Handle} :
    (h, ()) ∈ handlePreparsedDataMap os
      ↔ ∃ p, (h, p) ∈ openDeviceHandles os ∧ os.getPreparsedData h = true := by
  rw [(handlePreparsedDataMap_perm os).mem_iff]
  constructor
  · intro hm
    obtain ⟨hp, hmem, heq⟩ := List.mem_filterMap.mp hm
    obtain ⟨h₁, p₁⟩ := hp
    by_cases hb : os.getPreparsedData h₁
    · rw [if_pos hb] at heq
      obtain ⟨rfl, -⟩ := Prod.mk.injEq .. ▸ Option.some.inj heq
      exact ⟨p₁, hmem, hb⟩
    · rw [if_neg hb] at heq
      simp at heq
  · rintro ⟨p, hmem, hb⟩
    exact List.mem_filterMap.mpr ⟨(h, p), hmem, by simp [hb]⟩

/-- The capability-stage survivors in preparsed-map iteration order. -/
def capsList (os : OsEnv) : List (Handle × HIDP_CAPS) :=
  (handlePreparsedDataMap os).filterMap
    (fun hp => (os.getCaps hp.1).map (fun c => (hp.1, c)))

theorem devPathCapsMap_eq_insFold (os : OsEnv) :
    devPathCapsMap os = insFold (capsList os) [] :=
  foldl_match_eq_insFold _ _ (fun m b => by cases os.getCaps b.1 <;> rfl) _ []

theorem capsList_keys_nodup (os : OsEnv) : ((capsList os).map Prod.fst).Nodup := by
  have hkeys : (capsList os).map Prod.fst
      = (handlePreparsedDataMap os).filterMap
          (fun hp => (os.getCaps hp.1).map (fun _ => hp.1)) :=
    map_fst_filterMap_congr _ _ (fun b => by cases os.getCaps b.1 <;> rfl) _
  rw [hkeys]
  exact (filterMap_keys_sublist _ Prod.fst
    (fun b => by cases os.getCaps b.1 <;> simp) _).nodup
    (sorted_keys_nodup (handlePreparsedDataMap_sorted os))

theorem devPathCapsMap_perm (os : OsEnv) : (devPathCapsMap os).Perm (capsList os) := by
  rw [devPathCapsMap_eq_insFold]
  simpa using insFold_perm (capsList os) [] (by simpa using capsList_keys_nodup os)

theorem devPathCapsMap_sorted (os : OsEnv) :
    (devPathCapsMap os).Pairwise (fun x y => x.1 < y.1) := by
  rw [devPathCapsMap_eq_insFold]
  exact insFold_sorted _ [] (by simp)

theorem mem_devPathCapsMap_iff (os : OsEnv) {h : Handle} {c : HIDP_CAPS} :
    (h, c) ∈ devPathCapsMap os
      ↔ (h, ()) ∈ handlePreparsedDataMap os ∧ os.getCaps h = some c := by
  rw [(devPathCapsMap_perm os).mem_iff]
  constructor
  · intro hm
    obtain ⟨hp, hmem, heq⟩ := List.mem_filterMap.mp hm
    obtain ⟨h₁, u₁⟩ := hp
    cases hgc : os.getCaps h₁ with
    | none => rw [hgc] at heq; simp at heq
    | some c₁ =>
      rw [hgc] at heq
      simp only [Option.map_some'] at heq
      obtain ⟨rfl, rfl⟩ := Prod.mk.injEq .. ▸ Option.some.inj heq
      exact ⟨hmem, hgc⟩
  · rintro ⟨hmem, hgc⟩
    exact List.mem_filterMap.mpr ⟨(h, ()), hmem, by simp [hgc]⟩

/-! ### The manufacturer stage -/

theorem hndManuAux_eq_none_iff (os : OsEnv) (l : List (Handle × WStr)) :
    ∀ acc, (hndManuAux os acc l = none
      ↔ ∃ hp ∈ l, truncAtNul (manuBuffer os hp.1) = none) := by
  induction l with
  | nil => intro acc; simp [hndManuAux]
  | cons hp rest ih =>
    intro acc
    simp only [hndManuAux]
    cases ht : truncAtNul (manuBuffer os hp.1) with
    | none =>
      constructor
      · intro _
        exact ⟨hp, List.mem_cons_self _ _, ht⟩
      · intro _
        rfl
    | some s =>
      rw [ih]
      constructor
      · rintro ⟨x, hx, hxn⟩
        exact ⟨x, List.mem_cons_of_mem _ hx, hxn⟩
      · rintro ⟨x, hx, hxn⟩
        rcases List.mem_cons.mp hx with rfl | hx
        · rw [ht] at hxn
          exact absurd hxn (by simp)
        · exact ⟨x, hx, hxn⟩

theorem hndManuAux_eq_some (os : OsEnv) (l : List (Handle × WStr)) :
    ∀ acc, (∀ hp ∈ l, (truncAtNul (manuBuffer os hp.1)).isSome) →
      hndManuAux os acc l
        = some (insFold
            (l.map (fun hp => (hp.1, (truncAtNul (manuBuffer os hp.1)).getD []))) acc) := by
  induction l with
  | nil => intro acc _; simp [hndManuAux, insFold]
  | cons hp rest ih =>
    intro acc hall
    obtain ⟨s, hs⟩ := Option.isSome_iff_exists.mp (hall hp (List.mem_cons_self _ _))
    simp only [hndManuAux, List.map_cons, hs]
    have hrest := ih (mapInsert hp.1 s acc) (fun x hx => hall x (List.mem_cons_of_mem _ hx))
    rw [hrest]
    simp only [Option.getD_some]
    rfl

/-- The manufacturer strings of every open handle, in open-map iteration
order (the content of `hndManufacturerMap` when the erase step never
throws). -/
def manuList (os : OsEnv) : List (Handle × WStr) :=
  (openDeviceHandles os).map (fun hp => (hp.1, (truncAtNul (manuBuffer os hp.1)).getD []))

theorem map_fst_map_pair {α β : Type} (l : List (Nat × α)) (f : Nat × α → β) :
    (l.map (fun hp => (hp.1, f hp))).map Prod.fst = l.map Prod.fst := by
  induction l with
  | nil => rfl
  | cons hp rest ih => simp [ih]

theorem hndManufacturerMap_none_iff (os : OsEnv) :
    hndManufacturerMap os = none
      ↔ ∃ hp ∈ openDeviceHandles os, truncAtNul (manuBuffer os hp.1) = none :=
  hndManuAux_eq_none_iff os _ []

theorem hndManufacturerMap_some_inv (os : OsEnv) {m : List (Handle × WStr)}
    (hm : hndManufacturerMap os = some m) : m = insFold (manuList os) [] := by
  have hall : ∀ hp ∈ openDeviceHandles os, (truncAtNul (manuBuffer os hp.1)).isSome := by
    intro hp hmem
    by_contra hns
    have : hndManufacturerMap os = none :=
      (hndManufacturerMap_none_iff os).mpr
        ⟨hp, hmem, Option.not_isSome_iff_eq_none.mp hns⟩
    rw [this] at hm
    exact Option.noConfusion hm
  have := hndManuAux_eq_some os (openDeviceHandles os) [] hall
  rw [hndManufacturerMap] at hm
  rw [this] at hm
  exact (Option.some.inj hm).symm

theorem manuList_keys (os : OsEnv) :
    (manuList os).map Prod.fst = (openDeviceHandles os).map Prod.fst :=
  map_fst_map_pair _ _

theorem manuMap_perm (os : OsEnv) {m : List (Handle × WStr)}
    (hm : hndManufacturerMap os = some m) : m.Perm (manuList os) := by
  rw [hndManufacturerMap_some_inv os hm]
  have hkeys : ((manuList os).map Prod.fst).Nodup := by
    rw [manuList_keys]
    exact openDeviceHandles_keys_nodup os
  simpa using insFold_perm (manuList os) [] (by simpa using hkeys)

/-! ### Map-lookup lemmas for the assembly loop -/

theorem mapFind?_openDeviceHandles (os : OsEnv) {h : Handle} {p : WStr}
    (hmem : (h, p) ∈ openDeviceHandles os) :
    mapFind? h (openDeviceHandles os) = some p :=
  mapFind?_eq_some_of_mem (openDeviceHandles_keys_nodup os) hmem

theorem mapFind?_manuMap (os : OsEnv) {m : List (Handle × WStr)} {h : Handle} {p : WStr}
    (hm : hndManufacturerMap os = some m) (hmem : (h, p) ∈ openDeviceHandles os) :
    mapFind? h m = some ((truncAtNul (manuBuffer os h)).getD []) := by
  have hperm := manuMap_perm os hm
  have hkeys : (m.map Prod.fst).Nodup := by
    have := (hperm.map Prod.fst).symm
    exact this.nodup (by rw [manuList_keys]; exact openDeviceHandles_keys_nodup os)
  refine mapFind?_eq_some_of_mem hkeys ?_
  rw [hperm.mem_iff]
  exact List.mem_map.mpr ⟨(h, p), hmem, rfl⟩

theorem mapFind?_devPathCapsMap (os : OsEnv) {h : Handle} {c : HIDP_CAPS}
    (hmem : (h, c) ∈ devPathCapsMap os) :
    mapFind? h (devPathCapsMap os) = some c :=
  mapFind?_eq_some_of_mem (sorted_keys_nodup (devPathCapsMap_sorted os)) hmem

/-! ### The final assembly loop -/

theorem buildInfoList_some_eq (os : OsEnv) (manu : List (Handle × WStr)) :
    ∀ (l : List (Handle × hidAttributes)) (r : List hidDeviceInfo),
      buildInfoList os manu l = some r →
      r = l.map (fun ha =>
        ⟨(mapFind? ha.1 (openDeviceHandles os)).getD [],
         (mapFind? ha.1 manu).getD [], ha.2,
         (mapFind? ha.1 (devPathCapsMap os)).getD emptyCaps⟩) := by
  intro l
  induction l with
  | nil =>
    intro r hr
    simp only [buildInfoList] at hr
    simpa using (Option.some.inj hr).symm
  | cons ha rest ih =>
    intro r hr
    obtain ⟨h, a⟩ := ha
    simp only [buildInfoList] at hr
    split at hr
    · rename_i p m c heq₁ heq₂ heq₃
      split at hr
      · rename_i tail htail
        obtain rfl := (Option.some.inj hr).symm
        rw [List.map_cons]
        rw [ih tail htail]
        rw [heq₁, heq₂, heq₃]
        rfl
      · exact absurd hr (by simp)
    · exact absurd hr (by simp)

theorem buildInfoList_some_finds (os : OsEnv) (manu : List (Handle × WStr)) :
    ∀ (l : List (Handle × hidAttributes)) (r : List hidDeviceInfo),
      buildInfoList os manu l = some r →
      ∀ ha ∈ l, ∃ p m c, mapFind? ha.1 (openDeviceHandles os) = some p
        ∧ mapFind? ha.1 manu = some m
        ∧ mapFind? ha.1 (devPathCapsMap os) = some c := by
  intro l
  induction l with
  | nil => intro r _ ha hmem; simp at hmem
  | cons hd rest ih =>
    intro r hr ha hmem
    obtain ⟨h, a⟩ := hd
    simp only [buildInfoList] at hr
    split at hr
    · rename_i p m c heq₁ heq₂ heq₃
      split at hr
      · rename_i tail htail
        rcases List.mem_cons.mp hmem with rfl | hmem₁
        · exact ⟨p, m, c, heq₁, heq₂, heq₃⟩
        · exact ih tail htail ha hmem₁
      · exact absurd hr (by simp)
    · exact absurd hr (by simp)

theorem buildInfoList_eq_none (os : OsEnv) (manu : List (Handle × WStr)) :
    ∀ l : List (Handle × hidAttributes),
      (∃ ha ∈ l, mapFind? ha.1 (devPathCapsMap os) = none) →
      buildInfoList os manu l = none := by
  intro l
  induction l with
  | nil => rintro ⟨ha, hmem, -⟩; simp at hmem
  | cons hd rest ih =>
    rintro ⟨ha, hmem, hnone⟩
    obtain ⟨h, a⟩ := hd
    simp only [buildInfoList]
    cases h₁ : mapFind? h (openDeviceHandles os) with
    | none => rfl
    | some p =>
      cases h₂ : mapFind? h manu with
      | none => rfl
      | some m =>
        cases h₃ : mapFind? h (devPathCapsMap os) with
        | none => rfl
        | some c =>
          rcases List.mem_cons.mp hmem with rfl | hmem₁
          · rw [hnone] at h₃
            exact Option.noConfusion h₃
          · rw [ih ⟨ha, hmem₁, hnone⟩]

theorem two_le_countP {α : Type} {Q : α → Bool} :
    ∀ {l : List α} {x₁ x₂ : α}, x₁ ∈ l → x₂ ∈ l → x₁ ≠ x₂ →
      Q x₁ = true → Q x₂ = true → 2 ≤ l.countP Q := by
  intro l
  induction l with
  | nil => intro x₁ x₂ h; simp at h
  | cons a rest ih =>
    intro x₁ x₂ h₁ h₂ hne hq₁ hq₂
    rcases List.mem_cons.mp h₁ with he₁ | hm₁
    · have hm₂ : x₂ ∈ rest := by
        rcases List.mem_cons.mp h₂ with he₂ | hm₂
        · exact absurd (he₁.trans he₂.symm) hne
        · exact hm₂
      have hpos : 0 < rest.countP Q := List.countP_pos_iff.mpr ⟨x₂, hm₂, hq₂⟩
      rw [List.countP_cons, ← he₁, hq₁]
      simp only [if_true]
      omega
    · rcases List.mem_cons.mp h₂ with he₂ | hm₂
      · have hpos : 0 < rest.countP Q := List.countP_pos_iff.mpr ⟨x₁, hm₁, hq₁⟩
        rw [List.countP_cons, ← he₂, hq₂]
        simp only [if_true]
        omega
      · have := ih hm₁ hm₂ hne hq₁ hq₂
        rw [List.countP_cons]
        omega

/-! ### Concrete oracles for witnesses and counterexamples -/

/-- The path `"AB"`. -/
def pathA : WStr := [65, 66]

/-- The path `"CD"`. -/
def pathB : WStr := [67, 68]

/-- The attributes of the spec's concrete scenario. -/
def attrsA : hidAttributes := ⟨0x1234, 0x5678, 0x0100⟩

/-- A second, distinct attributes record. -/
def attrsB : hidAttributes := ⟨0x1111, 0x2222, 0x0200⟩

/-- A capability block with usagePage 1 and 8-byte input reports. -/
def capsA : HIDP_CAPS := ⟨1, 6, 8, 0, 0⟩

/-- One fully queryable device: path `pathA`, handle 5, manufacturer `"MN"`. -/
def osOne : OsEnv where
  classDevsValid := true
  interfaces := [0]
  getDevicePath := fun _ => pathA
  createFile := fun _ _ => some 5
  getManufacturerString := fun _ => [77, 78]
  getAttributes := fun _ => some attrsA
  getPreparsedData := fun _ => true
  getCaps := fun _ => some capsA

/-- `osOne` with a failing manufacturer query (the OS writes nothing, the
buffer keeps its null fill). -/
def osNoManu : OsEnv := { osOne with getManufacturerString := fun _ => [] }

/-- `osOne` with discovery reporting no device-interface set. -/
def osInvalid : OsEnv := { osOne with classDevsValid := false }

/-- `osOne` with a manufacturer query that fills the whole 126-unit buffer
with non-null code units. -/
def osFullManu : OsEnv :=
  { osOne with getManufacturerString := fun _ => List.replicate 126 1 }

/-- Two devices: handle 10 (path `pathA`) fully queryable; handle 11
(path `pathB`) with successful attributes query but failing preparsed-data
query. -/
def osBlobFail : OsEnv where
  classDevsValid := true
  interfaces := [0, 1]
  getDevicePath := fun i => if i = 0 then pathA else pathB
  createFile := fun i _ => some (i + 10)
  getManufacturerString := fun _ => []
  getAttributes := fun h => if h = 10 then some attrsA else some attrsB
  getPreparsedData := fun h => h == 10
  getCaps := fun _ => some capsA

/-- Discovery yields the same path `pathA` twice; both opens succeed with
distinct handles 7 and 8; every per-handle query succeeds. -/
def osDup : OsEnv where
  classDevsValid := true
  interfaces := [0, 1]
  getDevicePath := fun _ => pathA
  createFile := fun i _ => some (i + 7)
  getManufacturerString := fun _ => []
  getAttributes := fun _ => some attrsA
  getPreparsedData := fun _ => true
  getCaps := fun _ => some capsA

/-- Two fully queryable devices whose OS-assigned handle values (9 for the
first-opened path, 4 for the second) are not in open order. -/
def osTwo : OsEnv where
  classDevsValid := true
  interfaces := [0, 1]
  getDevicePath := fun i => if i = 0 then pathA else pathB
  createFile := fun i _ => if i = 0 then some 9 else some 4
  getManufacturerString := fun _ => []
  getAttributes := fun h => if h = 9 then some attrsA else some attrsB
  getPreparsedData := fun _ => true
  getCaps := fun _ => some capsA

/-! ### Claims -/

/-- C1 (counterexample): in `osBlobFail`, handle 10 (path `pathA`) is fully
queryable — it survives every stage including the capability parse — and
handle 11 fails only its preparsed-data query; the claim demands that only
device 11 be dropped and device 10's record be returned, but the call
returns the empty list: the final assembly loop's `devPathCapsMap.at(11)`
throws and the `catch(...)` discards the whole result. -/
theorem C1_counterexample :
    handleAttributesMap osBlobFail = [(10, attrsA), (11, attrsB)]
    ∧ devPathCapsMap osBlobFail = [(10, capsA)]
    ∧ GetlInstalledDevicesInfo osBlobFail = [] := by
  refine ⟨by decide, by decide, by decide⟩

/-- C1 (amended): if the preparsed-data or capability query fails for a
device whose attributes query succeeded, the `std::map::at` lookup in the
final assembly loop throws and the entire call returns the empty sequence
— no device record is returned at all.  (Per-device dropping happens only
for devices whose attributes query also fails.) -/
theorem C1_blob_failure_empties_whole_result (os : OsEnv) (h : Handle)
    (a : hidAttributes)
    (hmem : (h, a) ∈ handleAttributesMap os)
    (hmiss : mapFind? h (devPathCapsMap os) = none) :
    GetlInstalledDevicesInfo os = [] := by
  unfold GetlInstalledDevicesInfo rawBody
  by_cases hv : os.classDevsValid = true
  · simp only [hv, if_true]
    cases hm : hndManufacturerMap os with
    | none => rfl
    | some manu =>
      have hb := buildInfoList_eq_none os manu (handleAttributesMap os) ⟨(h, a), hmem, hmiss⟩
      simp [hb]
  · simp only [hv, if_false]
    rfl

/-- Witness for `C1_blob_failure_empties_whole_result` at `osBlobFail`. -/
theorem C1_blob_failure_witness : GetlInstalledDevicesInfo osBlobFail = [] :=
  C1_blob_failure_empties_whole_result osBlobFail 11 attrsB (by decide) (by decide)

/-- C3: `GetlInstalledDevicesInfo` is a total function into lists — no
error ever reaches the caller; on every oracle it either completed the try
body normally (returning exactly that body's list) or an exception was
reduced to the empty list. -/
theorem C3_never_raises (os : OsEnv) :
    rawBody os = some (GetlInstalledDevicesInfo os)
    ∨ (rawBody os = none ∧ GetlInstalledDevicesInfo os = []) := by
  cases hr : rawBody os with
  | none =>
    right
    exact ⟨rfl, by simp [GetlInstalledDevicesInfo, hr]⟩
  | some l =>
    left
    simp [GetlInstalledDevicesInfo, hr]

/-- C6: when `SetupDiGetClassDevs` reports no device-interface set, the
call returns the empty list at once: no handle is opened (so no per-device
query is made on any handle) and nothing needs releasing. -/
theorem C6_invalid_discovery_empty (os : OsEnv)
    (hv : os.classDevsValid = false) :
    GetlInstalledDevicesInfo os = []
    ∧ acquiredHandles os = []
    ∧ releasedHandles os = []
    ∧ acquiredBlobs os = []
    ∧ releasedBlobs os = [] := by
  refine ⟨?_, ?_, ?_, ?_, ?_⟩ <;>
    simp [GetlInstalledDevicesInfo, rawBody, acquiredHandles, releasedHandles,
      acquiredBlobs, releasedBlobs, blobStageReached, hv]

/-- Witness for `C6_invalid_discovery_empty` at `osInvalid`. -/
theorem C6_invalid_discovery_witness :
    GetlInstalledDevicesInfo osInvalid = []
    ∧ acquiredHandles osInvalid = []
    ∧ releasedHandles osInvalid = []
    ∧ acquiredBlobs osInvalid = []
    ∧ releasedBlobs osInvalid = [] :=
  C6_invalid_discovery_empty osInvalid (by decide)

/-- C10: if the manufacturer query of some open handle fills the whole
126-code-unit buffer without any embedded null, `find_first_of` returns
`npos`, `erase(npos)` throws, and the whole call returns the empty list
instead of a truncated string for that device. -/
theorem C10_full_buffer_throws (os : OsEnv) (h : Handle) (p : WStr)
    (hopen : (h, p) ∈ openDeviceHandles os)
    (hfull : ∀ c ∈ manuBuffer os h, c ≠ 0) :
    truncAtNul (manuBuffer os h) = none ∧ GetlInstalledDevicesInfo os = [] := by
  have htr : truncAtNul (manuBuffer os h) = none := by
    unfold truncAtNul
    have : (manuBuffer os h).findIdx? (fun c => c == 0) = none := by
      rw [List.findIdx?_eq_none_iff]
      intro x hx
      simpa using hfull x hx
    rw [this]
  refine ⟨htr, ?_⟩
  unfold GetlInstalledDevicesInfo rawBody
  by_cases hv : os.classDevsValid = true
  · simp only [hv, if_true]
    rw [(hndManufacturerMap_none_iff os).mpr ⟨(h, p), hopen, htr⟩]
    rfl
  · simp only [hv, if_false]
    rfl

set_option maxRecDepth 4096 in
/-- Witness for `C10_full_buffer_throws` at `osFullManu`. -/
theorem C10_full_buffer_witness :
    truncAtNul (manuBuffer osFullManu 5) = none
    ∧ GetlInstalledDevicesInfo osFullManu = [] :=
  C10_full_buffer_throws osFullManu 5 pathA (by decide) (by decide)

/-- C4: every record in the result corresponds to a device for which every
essential stage succeeded — its path was resolved and opened (it is in the
open-handle map under some handle), and on that handle the attributes
query, the preparsed-data query and the capability parse all succeeded,
producing exactly the record's fields.  In particular a device whose
attributes query failed can never appear. -/
theorem C4_complete_records (os : OsEnv) (d : hidDeviceInfo)
    (hd : d ∈ GetlInstalledDevicesInfo os) :
    ∃ h, (h, d.path) ∈ openDeviceHandles os
      ∧ os.getAttributes h = some d.attributes
      ∧ os.getPreparsedData h = true
      ∧ os.getCaps h = some d.capabilities := by
  unfold GetlInstalledDevicesInfo at hd
  cases hr : rawBody os with
  | none => rw [hr] at hd; simp at hd
  | some l =>
    rw [hr] at hd
    simp only [Option.getD_some] at hd
    unfold rawBody at hr
    by_cases hv : os.classDevsValid = true
    · rw [if_pos hv] at hr
      cases hm : hndManufacturerMap os with
      | none => rw [hm] at hr; exact absurd hr (by simp)
      | some manu =>
        rw [hm] at hr
        have heq := buildInfoList_some_eq os manu _ l hr
        rw [heq] at hd
        obtain ⟨ha, hamem, hfa⟩ := List.mem_map.mp hd
        obtain ⟨h, a⟩ := ha
        obtain ⟨p, ms, c, hf₁, hf₂, hf₃⟩ :=
          buildInfoList_some_finds os manu _ l hr (h, a) hamem
        rw [hf₁, hf₃] at hfa
        simp only [Option.getD_some] at hfa
        subst hfa
        refine ⟨h, mem_of_mapFind?_eq_some hf₁, ?_, ?_, ?_⟩
        · obtain ⟨p₁, -, hga⟩ := (mem_handleAttributesMap_iff os).mp hamem
          exact hga
        · have hcmem := mem_of_mapFind?_eq_some hf₃
          obtain ⟨hpd, -⟩ := (mem_devPathCapsMap_iff os).mp hcmem
          obtain ⟨p₂, -, hprep⟩ := (mem_handlePreparsedDataMap_iff os).mp hpd
          exact hprep
        · have hcmem := mem_of_mapFind?_eq_some hf₃
          obtain ⟨-, hgc⟩ := (mem_devPathCapsMap_iff os).mp hcmem
          exact hgc
    · rw [if_neg hv] at hr
      have : ([] : List hidDeviceInfo) = l := Option.some.inj hr
      rw [← this] at hd
      simp at hd

/-- Witness for `C4_complete_records` at `osOne`. -/
theorem C4_complete_records_witness :
    ∃ h, (h, (⟨pathA, [77, 78], attrsA, capsA⟩ : hidDeviceInfo).path)
        ∈ openDeviceHandles osOne
      ∧ osOne.getAttributes h
          = some (⟨pathA, [77, 78], attrsA, capsA⟩ : hidDeviceInfo).attributes
      ∧ osOne.getPreparsedData h = true
      ∧ osOne.getCaps h
          = some (⟨pathA, [77, 78], attrsA, capsA⟩ : hidDeviceInfo).capabilities :=
  C4_complete_records osOne ⟨pathA, [77, 78], attrsA, capsA⟩ (by decide)

/-- C5: a device whose manufacturer query fails (the OS writes nothing and
the buffer keeps its null fill) but whose attributes, preparsed-data and
capability queries succeed appears in the result with the empty string as
manufacturer. -/
theorem C5_manufacturer_empty_included (os : OsEnv) (l : List hidDeviceInfo)
    (h : Handle) (p : WStr) (a : hidAttributes) (c : HIDP_CAPS)
    (hv : os.classDevsValid = true)
    (hok : rawBody os = some l)
    (hopen : (h, p) ∈ openDeviceHandles os)
    (hmanu : os.getManufacturerString h = [])
    (hattrs : os.getAttributes h = some a)
    (hprep : os.getPreparsedData h = true)
    (hcaps : os.getCaps h = some c) :
    (⟨p, [], a, c⟩ : hidDeviceInfo) ∈ GetlInstalledDevicesInfo os := by
  have hres : GetlInstalledDevicesInfo os = l := by simp [GetlInstalledDevicesInfo, hok]
  rw [hres]
  unfold rawBody at hok
  rw [if_pos hv] at hok
  cases hm : hndManufacturerMap os with
  | none => rw [hm] at hok; exact absurd hok (by simp)
  | some manu =>
    rw [hm] at hok
    obtain rfl := buildInfoList_some_eq os manu _ l hok
    have hamem : (h, a) ∈ handleAttributesMap os :=
      (mem_handleAttributesMap_iff os).mpr ⟨p, hopen, hattrs⟩
    refine List.mem_map.mpr ⟨(h, a), hamem, ?_⟩
    have hbuf : manuBuffer os h = List.replicate MAX_USB_DEVICE_STR_LEN 0 := by
      simp [manuBuffer, hmanu]
    have htr : truncAtNul (manuBuffer os h) = some [] := by
      rw [hbuf]
      decide
    have hf₁ := mapFind?_openDeviceHandles os hopen
    have hf₂ := mapFind?_manuMap os hm hopen
    have hcapsmem : (h, c) ∈ devPathCapsMap os :=
      (mem_devPathCapsMap_iff os).mpr
        ⟨(mem_handlePreparsedDataMap_iff os).mpr ⟨p, hopen, hprep⟩, hcaps⟩
    have hf₃ := mapFind?_devPathCapsMap os hcapsmem
    simp [hf₁, hf₂, hf₃, htr]

/-- Witness for `C5_manufacturer_empty_included` at `osNoManu`. -/
theorem C5_manufacturer_empty_witness :
    (⟨pathA, [], attrsA, capsA⟩ : hidDeviceInfo)
      ∈ GetlInstalledDevicesInfo osNoManu :=
  C5_manufacturer_empty_included osNoManu [⟨pathA, [], attrsA, capsA⟩]
    5 pathA attrsA capsA (by decide) (by decide) (by decide) (by decide)
    (by decide) (by decide) (by decide)

/-- C7: when discovery yields the same path twice and both opens succeed
with distinct handle values, and both handles pass the attributes stage
(with the call completing normally), the result holds at least two entries
for that path — no de-duplication by path occurs. -/
theorem C7_duplicate_path_two_entries (os : OsEnv) (l : List hidDeviceInfo)
    (h₁ h₂ : Handle) (p : WStr) (a₁ a₂ : hidAttributes)
    (hv : os.classDevsValid = true)
    (hok : rawBody os = some l)
    (hne : h₁ ≠ h₂)
    (hopen₁ : (h₁, p) ∈ openDeviceHandles os)
    (hopen₂ : (h₂, p) ∈ openDeviceHandles os)
    (hattr₁ : os.getAttributes h₁ = some a₁)
    (hattr₂ : os.getAttributes h₂ = some a₂) :
    2 ≤ (GetlInstalledDevicesInfo os).countP (fun d => d.path == p) := by
  have hres : GetlInstalledDevicesInfo os = l := by simp [GetlInstalledDevicesInfo, hok]
  rw [hres]
  unfold rawBody at hok
  rw [if_pos hv] at hok
  cases hm : hndManufacturerMap os with
  | none => rw [hm] at hok; exact absurd hok (by simp)
  | some manu =>
    rw [hm] at hok
    obtain rfl := buildInfoList_some_eq os manu _ l hok
    rw [List.countP_map]
    have hmem₁ : (h₁, a₁) ∈ handleAttributesMap os :=
      (mem_handleAttributesMap_iff os).mpr ⟨p, hopen₁, hattr₁⟩
    have hmem₂ : (h₂, a₂) ∈ handleAttributesMap os :=
      (mem_handleAttributesMap_iff os).mpr ⟨p, hopen₂, hattr₂⟩
    have hpne : (h₁, a₁) ≠ (h₂, a₂) := fun hc => hne (congrArg Prod.fst hc)
    have hq₁ : ((fun d => d.path == p) ∘ (fun ha =>
        (⟨(mapFind? ha.1 (openDeviceHandles os)).getD [],
          (mapFind? ha.1 manu).getD [], ha.2,
          (mapFind? ha.1 (devPathCapsMap os)).getD emptyCaps⟩ : hidDeviceInfo)))
        (h₁, a₁) = true := by
      simp [Function.comp, mapFind?_openDeviceHandles os hopen₁]
    have hq₂ : ((fun d => d.path == p) ∘ (fun ha =>
        (⟨(mapFind? ha.1 (openDeviceHandles os)).getD [],
          (mapFind? ha.1 manu).getD [], ha.2,
          (mapFind? ha.1 (devPathCapsMap os)).getD emptyCaps⟩ : hidDeviceInfo)))
        (h₂, a₂) = true := by
      simp [Function.comp, mapFind?_openDeviceHandles os hopen₂]
    exact two_le_countP hmem₁ hmem₂ hpne hq₁ hq₂

/-- Witness for `C7_duplicate_path_two_entries` at `osDup`. -/
theorem C7_duplicate_path_witness :
    2 ≤ (GetlInstalledDevicesInfo osDup).countP (fun d => d.path == pathA) :=
  C7_duplicate_path_two_entries osDup
    [⟨pathA, [], attrsA, capsA⟩, ⟨pathA, [], attrsA, capsA⟩]
    7 8 pathA attrsA attrsA (by decide) (by decide) (by decide) (by decide)
    (by decide) (by decide) (by decide)

/-- C8: the returned sequence is exactly the iteration of the internal
attributes map — whose keys are strictly ascending OS handle values — with
each handle's fields looked up in the other collections. -/
theorem C8_result_order (os : OsEnv) (l : List hidDeviceInfo)
    (hv : os.classDevsValid = true)
    (hok : rawBody os = some l) :
    (handleAttributesMap os).Pairwise (fun x y => x.1 < y.1)
    ∧ GetlInstalledDevicesInfo os
        = (handleAttributesMap os).map (fun ha =>
            ⟨(mapFind? ha.1 (openDeviceHandles os)).getD [],
             (mapFind? ha.1 ((hndManufacturerMap os).getD [])).getD [], ha.2,
             (mapFind? ha.1 (devPathCapsMap os)).getD emptyCaps⟩) := by
  refine ⟨handleAttributesMap_sorted os, ?_⟩
  have hres : GetlInstalledDevicesInfo os = l := by simp [GetlInstalledDevicesInfo, hok]
  rw [hres]
  unfold rawBody at hok
  rw [if_pos hv] at hok
  cases hm : hndManufacturerMap os with
  | none => rw [hm] at hok; exact absurd hok (by simp)
  | some manu =>
    rw [hm] at hok
    simp only [Option.getD_some]
    exact buildInfoList_some_eq os manu _ l hok

/-- Witness for `C8_result_order` at `osTwo` (the second-opened device has
the smaller handle 4 and therefore comes first in the result). -/
theorem C8_result_order_witness :
    (handleAttributesMap osTwo).Pairwise (fun x y => x.1 < y.1)
    ∧ GetlInstalledDevicesInfo osTwo
        = (handleAttributesMap osTwo).map (fun ha =>
            ⟨(mapFind? ha.1 (openDeviceHandles osTwo)).getD [],
             (mapFind? ha.1 ((hndManufacturerMap osTwo).getD [])).getD [], ha.2,
             (mapFind? ha.1 (devPathCapsMap osTwo)).getD emptyCaps⟩) :=
  C8_result_order osTwo [⟨pathB, [], attrsB, capsA⟩, ⟨pathA, [], attrsA, capsA⟩]
    (by decide) (by decide)

/-- Every opened device handle and every preparsed blob acquired during
one call is released by the time the call returns, on every exit path.
Handles: `CloseHandlesGuard` closes exactly the keys of
`openDeviceHandles`, which are a permutation of the successful
`CreateFile` results (under the OS guarantee that simultaneously open
handles have pairwise distinct values).  Blobs: the `unique_ptr` deleters
free exactly the keys of `handlePreparsedDataMap`, which are exactly the
handles whose `HidD_GetPreparsedData` succeeded; when the manufacturer
stage throws first, no blob was acquired and none is freed; on the
invalid-discovery path nothing was acquired at all.  (The device-interface
set itself is a different story: see `infoSetReleased`.) -/
theorem handlesAndBlobs_released (os : OsEnv)
    (hnodup : (acquiredHandles os).Nodup) :
    (releasedHandles os).Perm (acquiredHandles os)
    ∧ (releasedBlobs os).Perm (acquiredBlobs os) := by
  constructor
  · unfold releasedHandles acquiredHandles
    by_cases hv : os.classDevsValid = true
    · rw [if_pos hv, if_pos hv]
      unfold acquiredHandles at hnodup
      rw [if_pos hv] at hnodup
      have hperm := (openDeviceHandles_perm os hnodup).map Prod.fst
      refine hperm.trans ?_
      rw [opensList_keys]
    · rw [if_neg hv, if_neg hv]
  · unfold releasedBlobs acquiredBlobs
    by_cases hb : blobStageReached os = true
    · rw [if_pos hb, if_pos hb]
      have hperm := (handlePreparsedDataMap_perm os).map Prod.fst
      refine hperm.trans ?_
      rw [prepList_keys]
    · rw [if_neg hb, if_neg hb]

/-- `handlesAndBlobs_released` instantiated at `osTwo`. -/
theorem handlesAndBlobs_released_osTwo :
    (releasedHandles osTwo).Perm (acquiredHandles osTwo)
    ∧ (releasedBlobs osTwo).Perm (acquiredBlobs osTwo) :=
  handlesAndBlobs_released osTwo (by decide)

/-- C2 (code bug): at `osOne` — a run where discovery returns a valid
device-information set and one device is fully queryable — every opened
handle and every preparsed blob is released, but the `HDEVINFO` set
acquired from `SetupDiGetClassDevs` (`usbhid.cpp:44`) is not: the file
contains no `SetupDiDestroyDeviceInfoList` call, so the set leaks on
every run that passes the invalid-handle check, contradicting the
release-everything discipline the routine implements for its other two
resources (scope guard, `unique_ptr` deleters). -/
theorem C2_device_info_set_leak :
    infoSetAcquired osOne = true
    ∧ infoSetReleased osOne = false
    ∧ releasedHandles osOne = acquiredHandles osOne
    ∧ releasedBlobs osOne = acquiredBlobs osOne :=
  ⟨rfl, rfl, by decide, by decide⟩

/-! ### Idempotence: abstracting the OS handle assignment

A device state describes everything the OS answers about the devices
themselves, keyed by the index of the open call (the position in
`devicePaths`), which identifies one device across calls.  The raw handle
values a call sees are an injective assignment `ha` from that index, with
`hi` recovering the device from a handle, as the OS kernel does. -/

/-- The handle-independent OS device state. -/
structure DeviceState where
  classDevsValid : Bool
  interfaces : List Nat
  getDevicePath : Nat → WStr
  openOk : Nat → Bool
  manuW : Nat → WStr
  attrsQ : Nat → Option hidAttributes
  prepOk : Nat → Bool
  capsQ : Nat → Option HIDP_CAPS

/-- The oracle one call sees when the OS assigns handle `ha i` to the i-th
open call and resolves handles back to devices by `hi`. -/
def osOf (ds : DeviceState) (ha hi : Nat → Nat) : OsEnv where
  classDevsValid := ds.classDevsValid
  interfaces := ds.interfaces
  getDevicePath := ds.getDevicePath
  createFile := fun i _ => if ds.openOk i then some (ha i) else none
  getManufacturerString := fun h => ds.manuW (hi h)
  getAttributes := fun h => ds.attrsQ (hi h)
  getPreparsedData := fun h => ds.prepOk (hi h)
  getCaps := fun h => ds.capsQ (hi h)

/-- The resolved non-empty device paths of a state. -/
def dsPaths (ds : DeviceState) : List WStr :=
  (ds.interfaces.map ds.getDevicePath).filter (fun p => !p.isEmpty)

/-- The successfully opened devices: (open-call index, path). -/
def dsOpens (ds : DeviceState) : List (Nat × WStr) :=
  (dsPaths ds).enum.filter (fun ip => ds.openOk ip.1)

/-- The manufacturer buffer of device `i`. -/
def dsBuffer (ds : DeviceState) (i : Nat) : WStr :=
  let w := (ds.manuW i).take MAX_USB_DEVICE_STR_LEN
  w ++ List.replicate (MAX_USB_DEVICE_STR_LEN - w.length) 0

/-- The capability block of device `i`, when both the preparsed-data query
and the capability parse succeed. -/
def dsCaps (ds : DeviceState) (i : Nat) : Option HIDP_CAPS :=
  if ds.prepOk i then ds.capsQ i else none

/-- The attributes-stage survivors: (index, path, attributes). -/
def dsAttrs (ds : DeviceState) : List (Nat × WStr × hidAttributes) :=
  (dsOpens ds).filterMap (fun ip => (ds.attrsQ ip.1).map (fun a => (ip.1, ip.2, a)))

/-- Some open device's manufacturer buffer holds no null (the erase step
throws). -/
def dsManuThrow (ds : DeviceState) : Bool :=
  (dsOpens ds).any (fun ip => (truncAtNul (dsBuffer ds ip.1)).isNone)

/-- Some attributes survivor lacks a capability block (the assembly loop's
`at` throws). -/
def dsBuildThrow (ds : DeviceState) : Bool :=
  (dsAttrs ds).any (fun x => (dsCaps ds x.1).isNone)

/-- The device record of an attributes survivor. -/
def dsRecord (ds : DeviceState) (x : Nat × WStr × hidAttributes) : hidDeviceInfo :=
  ⟨x.2.1, (truncAtNul (dsBuffer ds x.1)).getD [], x.2.2, (dsCaps ds x.1).getD emptyCaps⟩

/-- The result of one call, written on the device state alone. -/
def dsResult (ds : DeviceState) : List hidDeviceInfo :=
  if ds.classDevsValid && !dsManuThrow ds && !dsBuildThrow ds then
    (dsAttrs ds).map (dsRecord ds)
  else []

theorem filterMap_if_eq_filter_map {α β : Type} (p : α → Bool) (f : α → β) (l : List α) :
    l.filterMap (fun x => if p x then some (f x) else none) = (l.filter p).map f := by
  induction l with
  | nil => rfl
  | cons x rest ih =>
    by_cases hx : p x <;> simp [List.filterMap_cons, List.filter_cons, hx, ih]

theorem exists_of_mem_keys {α : Type} {k : Nat} {m : List (Nat × α)}
    (hk : k ∈ m.map Prod.fst) : ∃ v, (k, v) ∈ m := by
  obtain ⟨kv, hmem, hfst⟩ := List.mem_map.mp hk
  refine ⟨kv.2, ?_⟩
  rw [← hfst]
  exact hmem

theorem buildInfoList_isSome_of_finds (os : OsEnv) (manu : List (Handle × WStr)) :
    ∀ l : List (Handle × hidAttributes),
      (∀ ha ∈ l, (mapFind? ha.1 (openDeviceHandles os)).isSome
        ∧ (mapFind? ha.1 manu).isSome
        ∧ (mapFind? ha.1 (devPathCapsMap os)).isSome) →
      (buildInfoList os manu l).isSome := by
  intro l
  induction l with
  | nil => intro _; simp [buildInfoList]
  | cons hd rest ih =>
    intro hall
    obtain ⟨h, a⟩ := hd
    obtain ⟨hs₁, hs₂, hs₃⟩ := hall (h, a) (List.mem_cons_self _ _)
    obtain ⟨p, hp⟩ := Option.isSome_iff_exists.mp hs₁
    obtain ⟨ms, hms⟩ := Option.isSome_iff_exists.mp hs₂
    obtain ⟨c, hc⟩ := Option.isSome_iff_exists.mp hs₃
    have hrest := ih (fun x hx => hall x (List.mem_cons_of_mem _ hx))
    obtain ⟨tail, htail⟩ := Option.isSome_iff_exists.mp hrest
    simp [buildInfoList, hp, hms, hc, htail]

theorem devicePaths_osOf (ds : DeviceState) (ha hi : Nat → Nat) :
    devicePaths (osOf ds ha hi) = dsPaths ds := rfl

theorem opensList_osOf (ds : DeviceState) (ha hi : Nat → Nat) :
    opensList (osOf ds ha hi) = (dsOpens ds).map (fun ip => (ha ip.1, ip.2)) := by
  unfold opensList dsOpens
  have hfn : (fun ip : Nat × WStr =>
      ((osOf ds ha hi).createFile ip.1 ip.2).map (fun h => (h, ip.2)))
      = (fun ip : Nat × WStr => if ds.openOk ip.1 then some (ha ip.1, ip.2) else none) := by
    funext ip
    show ((if ds.openOk ip.1 then some (ha ip.1) else none).map (fun h => (h, ip.2))) = _
    by_cases hx : ds.openOk ip.1 <;> simp [hx]
  rw [devicePaths_osOf, hfn]
  exact filterMap_if_eq_filter_map _ _ _

theorem injective_of_left_inverse {ha hi : Nat → Nat}
    (hli : ∀ i, hi (ha i) = i) : Function.Injective ha := by
  intro a b hab
  have := congrArg hi hab
  rwa [hli, hli] at this

theorem acquired_nodup_osOf (ds : DeviceState) (ha hi : Nat → Nat)
    (hli : ∀ i, hi (ha i) = i) :
    ((devicePaths (osOf ds ha hi)).enum.filterMap
      (fun ip => (osOf ds ha hi).createFile ip.1 ip.2)).Nodup := by
  have hfn : (fun ip : Nat × WStr => (osOf ds ha hi).createFile ip.1 ip.2)
      = (fun ip : Nat × WStr => if ds.openOk ip.1 then some (ha ip.1) else none) := rfl
  rw [devicePaths_osOf, hfn, filterMap_if_eq_filter_map]
  have h₁ : (((dsPaths ds).enum.filter (fun ip => ds.openOk ip.1)).map Prod.fst).Nodup := by
    have hsub : (((dsPaths ds).enum.filter (fun ip => ds.openOk ip.1)).map Prod.fst).Sublist
        ((dsPaths ds).enum.map Prod.fst) := (List.filter_sublist _).map _
    rw [List.enum_map_fst] at hsub
    exact hsub.nodup (List.nodup_range _)
  have h₂ : ((dsPaths ds).enum.filter (fun ip => ds.openOk ip.1)).map (fun ip => ha ip.1)
      = (((dsPaths ds).enum.filter (fun ip => ds.openOk ip.1)).map Prod.fst).map ha := by
    rw [List.map_map]
    rfl
  rw [h₂]
  exact List.Nodup.map (injective_of_left_inverse hli) h₁

theorem open_perm_osOf (ds : DeviceState) (ha hi : Nat → Nat)
    (hli : ∀ i, hi (ha i) = i) :
    (openDeviceHandles (osOf ds ha hi)).Perm
      ((dsOpens ds).map (fun ip => (ha ip.1, ip.2))) := by
  refine (openDeviceHandles_perm (osOf ds ha hi) (acquired_nodup_osOf ds ha hi hli)).trans ?_
  rw [opensList_osOf]

theorem mem_open_osOf (ds : DeviceState) (ha hi : Nat → Nat)
    (hli : ∀ i, hi (ha i) = i) {i : Nat} {p : WStr}
    (hmem : (i, p) ∈ dsOpens ds) :
    (ha i, p) ∈ openDeviceHandles (osOf ds ha hi) := by
  rw [(open_perm_osOf ds ha hi hli).mem_iff]
  exact List.mem_map.mpr ⟨(i, p), hmem, rfl⟩

theorem manuBuffer_osOf (ds : DeviceState) (ha hi : Nat → Nat)
    (hli : ∀ i, hi (ha i) = i) (i : Nat) :
    manuBuffer (osOf ds ha hi) (ha i) = dsBuffer ds i := by
  have h₀ : (osOf ds ha hi).getManufacturerString (ha i) = ds.manuW i := by
    show ds.manuW (hi (ha i)) = ds.manuW i
    rw [hli i]
  unfold manuBuffer dsBuffer
  rw [h₀]

theorem attrsQ_osOf (ds : DeviceState) (ha hi : Nat → Nat)
    (hli : ∀ i, hi (ha i) = i) (i : Nat) :
    (osOf ds ha hi).getAttributes (ha i) = ds.attrsQ i := by
  show ds.attrsQ (hi (ha i)) = ds.attrsQ i
  rw [hli i]

theorem mem_dsAttrs (ds : DeviceState) {i : Nat} {p : WStr} {a : hidAttributes} :
    (i, p, a) ∈ dsAttrs ds ↔ (i, p) ∈ dsOpens ds ∧ ds.attrsQ i = some a := by
  unfold dsAttrs
  rw [List.mem_filterMap]
  constructor
  · rintro ⟨ip, hip, heq⟩
    cases hq : ds.attrsQ ip.1 with
    | none => rw [hq] at heq; simp at heq
    | some a₁ =>
      rw [hq] at heq
      simp only [Option.map_some', Option.some.injEq, Prod.mk.injEq] at heq
      obtain ⟨h₁, h₂, h₃⟩ := heq
      subst h₁
      subst h₂
      subst h₃
      exact ⟨hip, hq⟩
  · rintro ⟨hip, hq⟩
    exact ⟨(i, p), hip, by rw [hq]; rfl⟩

theorem attrs_perm_osOf (ds : DeviceState) (ha hi : Nat → Nat)
    (hli : ∀ i, hi (ha i) = i) :
    (handleAttributesMap (osOf ds ha hi)).Perm
      ((dsAttrs ds).map (fun x => (ha x.1, x.2.2))) := by
  refine (handleAttributesMap_perm (osOf ds ha hi)).trans ?_
  unfold attrsList
  refine ((open_perm_osOf ds ha hi hli).filterMap _).trans ?_
  rw [List.filterMap_map]
  unfold dsAttrs
  rw [List.map_filterMap]
  have hfn : ((fun hp : Handle × WStr =>
        ((osOf ds ha hi).getAttributes hp.1).map (fun a => (hp.1, a)))
        ∘ (fun ip : Nat × WStr => (ha ip.1, ip.2)))
      = fun ip : Nat × WStr =>
        Option.map (fun x : Nat × WStr × hidAttributes => (ha x.1, x.2.2))
          ((ds.attrsQ ip.1).map (fun a => (ip.1, ip.2, a))) := by
    funext ip
    show ((osOf ds ha hi).getAttributes (ha ip.1)).map (fun a => (ha ip.1, a)) = _
    rw [attrsQ_osOf ds ha hi hli ip.1]
    cases ds.attrsQ ip.1 <;> rfl
  rw [hfn]

theorem manu_none_iff_osOf (ds : DeviceState) (ha hi : Nat → Nat)
    (hli : ∀ i, hi (ha i) = i) :
    hndManufacturerMap (osOf ds ha hi) = none ↔ dsManuThrow ds = true := by
  rw [hndManufacturerMap_none_iff]
  unfold dsManuThrow
  rw [List.any_eq_true]
  constructor
  · rintro ⟨hp, hmem, htr⟩
    rw [(open_perm_osOf ds ha hi hli).mem_iff] at hmem
    obtain ⟨ip, hip, heq⟩ := List.mem_map.mp hmem
    refine ⟨ip, hip, ?_⟩
    rw [← heq] at htr
    rw [manuBuffer_osOf ds ha hi hli ip.1] at htr
    rw [Option.isNone_iff_eq_none]
    exact htr
  · rintro ⟨ip, hip, hnone⟩
    rw [Option.isNone_iff_eq_none] at hnone
    refine ⟨(ha ip.1, ip.2), mem_open_osOf ds ha hi hli hip, ?_⟩
    rw [manuBuffer_osOf ds ha hi hli ip.1]
    exact hnone

theorem capsFind_osOf (ds : DeviceState) (ha hi : Nat → Nat)
    (hli : ∀ i, hi (ha i) = i) {i : Nat} {p : WStr}
    (hmem : (i, p) ∈ dsOpens ds) :
    mapFind? (ha i) (devPathCapsMap (osOf ds ha hi)) = dsCaps ds i := by
  cases hdc : dsCaps ds i with
  | some c =>
    unfold dsCaps at hdc
    by_cases hpk : ds.prepOk i = true
    · rw [if_pos hpk] at hdc
      have hprep : (osOf ds ha hi).getPreparsedData (ha i) = true := by
        show ds.prepOk (hi (ha i)) = true
        rw [hli i]
        exact hpk
      have hcaps : (osOf ds ha hi).getCaps (ha i) = some c := by
        show ds.capsQ (hi (ha i)) = some c
        rw [hli i]
        exact hdc
      have hpmem : (ha i, ()) ∈ handlePreparsedDataMap (osOf ds ha hi) :=
        (mem_handlePreparsedDataMap_iff _).mpr
          ⟨p, mem_open_osOf ds ha hi hli hmem, hprep⟩
      exact mapFind?_devPathCapsMap _ ((mem_devPathCapsMap_iff _).mpr ⟨hpmem, hcaps⟩)
    · rw [if_neg hpk] at hdc
      exact absurd hdc (by simp)
  | none =>
    rw [mapFind?_eq_none_iff]
    intro hk
    obtain ⟨c, hc⟩ := exists_of_mem_keys hk
    obtain ⟨hpd, hgc⟩ := (mem_devPathCapsMap_iff _).mp hc
    obtain ⟨p₁, -, hprep⟩ := (mem_handlePreparsedDataMap_iff _).mp hpd
    have hpk : ds.prepOk i = true := by
      rw [← hli i]
      exact hprep
    have hcq : ds.capsQ i = some c := by
      rw [← hli i]
      exact hgc
    unfold dsCaps at hdc
    rw [if_pos hpk, hcq] at hdc
    exact Option.noConfusion hdc

theorem build_none_iff_osOf (ds : DeviceState) (ha hi : Nat → Nat)
    (hli : ∀ i, hi (ha i) = i) (manu : List (Handle × WStr))
    (hm : hndManufacturerMap (osOf ds ha hi) = some manu) :
    buildInfoList (osOf ds ha hi) manu (handleAttributesMap (osOf ds ha hi)) = none
      ↔ dsBuildThrow ds = true := by
  constructor
  · intro hb
    by_contra hnb
    have hall : ∀ x ∈ handleAttributesMap (osOf ds ha hi),
        (mapFind? x.1 (openDeviceHandles (osOf ds ha hi))).isSome
        ∧ (mapFind? x.1 manu).isSome
        ∧ (mapFind? x.1 (devPathCapsMap (osOf ds ha hi))).isSome := by
      intro x hx
      rw [(attrs_perm_osOf ds ha hi hli).mem_iff] at hx
      obtain ⟨y, hy, heqy⟩ := List.mem_map.mp hx
      obtain ⟨i, p, a⟩ := y
      rw [mem_dsAttrs] at hy
      obtain ⟨hio, hq⟩ := hy
      rw [← heqy]
      refine ⟨?_, ?_, ?_⟩
      · rw [mapFind?_openDeviceHandles _ (mem_open_osOf ds ha hi hli hio)]
        rfl
      · rw [mapFind?_manuMap _ hm (mem_open_osOf ds ha hi hli hio)]
        rfl
      · rw [capsFind_osOf ds ha hi hli hio]
        cases hdc : dsCaps ds i with
        | none =>
          exfalso
          apply hnb
          unfold dsBuildThrow
          rw [List.any_eq_true]
          refine ⟨(i, p, a), (mem_dsAttrs ds).mpr ⟨hio, hq⟩, ?_⟩
          rw [hdc]
          rfl
        | some c => rfl
    have hsome := buildInfoList_isSome_of_finds (osOf ds ha hi) manu
      (handleAttributesMap (osOf ds ha hi)) hall
    rw [hb] at hsome
    exact absurd hsome (by simp)
  · intro hb
    unfold dsBuildThrow at hb
    rw [List.any_eq_true] at hb
    obtain ⟨x, hx, hnone⟩ := hb
    obtain ⟨i, p, a⟩ := x
    rw [mem_dsAttrs] at hx
    obtain ⟨hio, hq⟩ := hx
    apply buildInfoList_eq_none
    refine ⟨(ha i, a), ?_, ?_⟩
    · rw [(attrs_perm_osOf ds ha hi hli).mem_iff]
      exact List.mem_map.mpr ⟨(i, p, a), (mem_dsAttrs ds).mpr ⟨hio, hq⟩, rfl⟩
    · rw [capsFind_osOf ds ha hi hli hio]
      exact Option.isNone_iff_eq_none.mp hnone

theorem result_perm_dsResult (ds : DeviceState) (ha hi : Nat → Nat)
    (hli : ∀ i, hi (ha i) = i) :
    (GetlInstalledDevicesInfo (osOf ds ha hi)).Perm (dsResult ds) := by
  by_cases hv : ds.classDevsValid = true
  · cases hm : hndManufacturerMap (osOf ds ha hi) with
    | none =>
      have hthrow : dsManuThrow ds = true := (manu_none_iff_osOf ds ha hi hli).mp hm
      have h₁ : GetlInstalledDevicesInfo (osOf ds ha hi) = [] := by
        have hv₁ : (osOf ds ha hi).classDevsValid = true := hv
        unfold GetlInstalledDevicesInfo rawBody
        rw [if_pos hv₁, hm]
        rfl
      have h₂ : dsResult ds = [] := by
        unfold dsResult
        rw [if_neg]
        simp [hthrow]
      rw [h₁, h₂]
    | some manu =>
      have hnothrow : dsManuThrow ds = false := by
        cases hmt : dsManuThrow ds with
        | false => rfl
        | true =>
          have := (manu_none_iff_osOf ds ha hi hli).mpr hmt
          rw [hm] at this
          exact Option.noConfusion this
      cases hb : buildInfoList (osOf ds ha hi) manu (handleAttributesMap (osOf ds ha hi)) with
      | none =>
        have hbt : dsBuildThrow ds = true :=
          (build_none_iff_osOf ds ha hi hli manu hm).mp hb
        have h₁ : GetlInstalledDevicesInfo (osOf ds ha hi) = [] := by
          have hv₁ : (osOf ds ha hi).classDevsValid = true := hv
          unfold GetlInstalledDevicesInfo rawBody
          rw [if_pos hv₁, hm]
          show (buildInfoList (osOf ds ha hi) manu
            (handleAttributesMap (osOf ds ha hi))).getD [] = _
          rw [hb]
          rfl
        have h₂ : dsResult ds = [] := by
          unfold dsResult
          rw [if_neg]
          simp [hbt]
        rw [h₁, h₂]
      | some l =>
        have hbf : dsBuildThrow ds = false := by
          cases hbt : dsBuildThrow ds with
          | false => rfl
          | true =>
            have := (build_none_iff_osOf ds ha hi hli manu hm).mpr hbt
            rw [hb] at this
            exact Option.noConfusion this
        have hres : GetlInstalledDevicesInfo (osOf ds ha hi) = l := by
          have hv₁ : (osOf ds ha hi).classDevsValid = true := hv
          unfold GetlInstalledDevicesInfo rawBody
          rw [if_pos hv₁, hm]
          show (buildInfoList (osOf ds ha hi) manu
            (handleAttributesMap (osOf ds ha hi))).getD [] = _
          rw [hb]
          rfl
        have hds : dsResult ds = (dsAttrs ds).map (dsRecord ds) := by
          unfold dsResult
          rw [if_pos]
          simp [hv, hnothrow, hbf]
        rw [hres, hds]
        have hl := buildInfoList_some_eq (osOf ds ha hi) manu _ l hb
        rw [hl]
        refine ((attrs_perm_osOf ds ha hi hli).map _).trans ?_
        rw [List.map_map]
        have hcongr : (dsAttrs ds).map ((fun ha₁ : Handle × hidAttributes =>
            (⟨(mapFind? ha₁.1 (openDeviceHandles (osOf ds ha hi))).getD [],
              (mapFind? ha₁.1 manu).getD [], ha₁.2,
              (mapFind? ha₁.1 (devPathCapsMap (osOf ds ha hi))).getD emptyCaps⟩
              : hidDeviceInfo))
            ∘ (fun x : Nat × WStr × hidAttributes => (ha x.1, x.2.2)))
            = (dsAttrs ds).map (dsRecord ds) := by
          refine List.map_congr_left ?_
          intro x hx
          obtain ⟨i, p, a⟩ := x
          rw [mem_dsAttrs] at hx
          obtain ⟨hio, hq⟩ := hx
          show (⟨(mapFind? (ha i) (openDeviceHandles (osOf ds ha hi))).getD [],
            (mapFind? (ha i) manu).getD [], a,
            (mapFind? (ha i) (devPathCapsMap (osOf ds ha hi))).getD emptyCaps⟩
            : hidDeviceInfo) = dsRecord ds (i, p, a)
          rw [mapFind?_openDeviceHandles _ (mem_open_osOf ds ha hi hli hio),
            mapFind?_manuMap _ hm (mem_open_osOf ds ha hi hli hio),
            capsFind_osOf ds ha hi hli hio,
            manuBuffer_osOf ds ha hi hli i]
          rfl
        rw [hcongr]
  · have h₁ : GetlInstalledDevicesInfo (osOf ds ha hi) = [] := by
      have hv₁ : ¬ (osOf ds ha hi).classDevsValid = true := hv
      unfold GetlInstalledDevicesInfo rawBody
      rw [if_neg hv₁]
      rfl
    have h₂ : dsResult ds = [] := by
      unfold dsResult
      rw [if_neg]
      simp [Bool.not_eq_true] at hv
      simp [hv]
    rw [h₁, h₂]

/-- C9: idempotence up to handle renaming — two calls against the same
unchanged device state, each seeing its own injective OS handle
assignment (`ha` with kernel-side inverse `hi`), return order-insensitive
equal (permutation-equal) sequences of records. -/
theorem C9_idempotent_order_insensitive (ds : DeviceState)
    (ha₁ hi₁ ha₂ hi₂ : Nat → Nat)
    (hli₁ : ∀ i, hi₁ (ha₁ i) = i) (hli₂ : ∀ i, hi₂ (ha₂ i) = i) :
    (GetlInstalledDevicesInfo (osOf ds ha₁ hi₁)).Perm
      (GetlInstalledDevicesInfo (osOf ds ha₂ hi₂)) :=
  (result_perm_dsResult ds ha₁ hi₁ hli₁).trans
    (result_perm_dsResult ds ha₂ hi₂ hli₂).symm

/-- A device state with two devices, used to witness C9. -/
def dsTwoDevices : DeviceState where
  classDevsValid := true
  interfaces := [0, 1]
  getDevicePath := fun i => if i = 0 then pathA else pathB
  openOk := fun _ => true
  manuW := fun _ => []
  attrsQ := fun i => if i = 0 then some attrsA else some attrsB
  prepOk := fun _ => true
  capsQ := fun _ => some capsA

/-- Witness for `C9_idempotent_order_insensitive`: the identity handle
assignment against the shifted one. -/
theorem C9_idempotent_witness :
    (GetlInstalledDevicesInfo (osOf dsTwoDevices id id)).Perm
      (GetlInstalledDevicesInfo
        (osOf dsTwoDevices (fun i => i + 5) (fun h => h - 5))) :=
  C9_idempotent_order_insensitive dsTwoDevices id id
    (fun i => i + 5) (fun h => h - 5)
    (fun _ => rfl) (fun i => Nat.add_sub_cancel i 5)
